import Mathlib

set_option autoImplicit false

/-! Shallow embedding of the moderation filter pipeline of the DISCORD_BOT
repository: the warning ledger (`AutoMod.get_warning_count`,
`AutoMod.increment_warning`, `AutoMod.reset_warnings` and `AutoMod._db_execute`
in `cogs/automod.py`), the banned-word matcher
(`AutoMod._compile_blacklist_patterns`, `AutoMod._contains_blacklisted_word`),
the staff exemption check (`AutoMod._is_staff_cached`), the message pipeline
(`AutoMod.on_message`, `AutoMod._handle_max_warnings`, `AutoMod._send_warning`)
and the blacklist mutation command (`BlacklistCog.add_bad_word` in
`cogs/blacklist.py`, `BlacklistManager.add` in `cogs/utils.py`).

Machine-level conventions of the embedding: user identifiers and warning
counts are `Nat`; the sqlite `warnings` table and the `fallback_warnings`
dict are association lists keyed by user id; a sqlite error inside
`_db_execute` is modelled by a fault oracle (a list of booleans consumed one
per attempted database call, `true` meaning `sqlite3.Error` is raised by that
call); message text is `List Char`. -/

/-! ## Warning ledger (`cogs/automod.py`, lines 125-180) -/

/-- Keyed lookup, modelling both the sqlite point lookup
`SELECT warning_count FROM warnings WHERE user_id = ?` and the dict
lookup `fallback_warnings.get(user_id, 0)` (the latter via `Option.getD`). -/
def lookupD : List (Nat × Nat) → Nat → Option Nat
  | [], _ => none
  | (k, v) :: rest, u => if k = u then some v else lookupD rest u

/-- Keyed store, modelling both
`INSERT OR REPLACE INTO warnings (user_id, warning_count) VALUES (?, ?)`
and the dict write `fallback_warnings[user_id] = new_count`. -/
def setKey : List (Nat × Nat) → Nat → Nat → List (Nat × Nat)
  | [], u, v => [(u, v)]
  | (k, w) :: rest, u, v =>
    if k = u then (u, v) :: rest else (k, w) :: setKey rest u v

/-- Modelling `UPDATE warnings SET warning_count = 0 WHERE user_id = ?`:
zeroes the row when present, inserts nothing otherwise. -/
def zeroKey : List (Nat × Nat) → Nat → List (Nat × Nat)
  | [], _ => []
  | (k, w) :: rest, u =>
    if k = u then (k, 0) :: zeroKey rest u else (k, w) :: zeroKey rest u

/-- Modelling `fallback_warnings.pop(user_id, None)`. -/
def removeKey : List (Nat × Nat) → Nat → List (Nat × Nat)
  | [], _ => []
  | (k, w) :: rest, u =>
    if k = u then removeKey rest u else (k, w) :: removeKey rest u

/-- The three SQL statements `AutoMod` issues through `_db_execute`. -/
inductive DbOp where
  | selectCount (uid : Nat)
  | upsertCount (uid cnt : Nat)
  | resetCount (uid : Nat)
  deriving DecidableEq

/-- Return value of `_db_execute`: Python `None`, a fetched row dict
(`{'warning_count': cnt}`), or `True` for a committed write. -/
inductive DbRes where
  | noneRes
  | rowRes (cnt : Nat)
  | okRes
  deriving DecidableEq

/-- The mutable fields of `AutoMod` that the warning ledger reads and
writes: `db_file` (modelled as the boolean "is not `None`"), the sqlite
`warnings` table, and the `fallback_warnings` dict. -/
structure LedgerState where
  dbFile : Bool
  db : List (Nat × Nat)
  fallback : List (Nat × Nat)
  deriving DecidableEq

/-- Effect of one successfully executed SQL statement on the table,
together with what the surrounding `_db_execute` returns for it. -/
def applyDbOp (st : LedgerState) : DbOp → DbRes × LedgerState
  | .selectCount uid =>
    match lookupD st.db uid with
    | some c => (.rowRes c, st)
    | none => (.noneRes, st)
  | .upsertCount uid c => (.okRes, { st with db := setKey st.db uid c })
  | .resetCount uid => (.okRes, { st with db := zeroKey st.db uid })

/-- `AutoMod._db_execute` (automod.py lines 125-142): returns `None`
immediately when `db_file` is `None`; otherwise attempts the statement,
consuming one fault flag — on `sqlite3.Error` (flag `true`) it prints,
sets `db_file = None` and returns `None`. -/
def dbExecute (st : LedgerState) (op : DbOp) (faults : List Bool) :
    DbRes × LedgerState × List Bool :=
  if st.dbFile then
    match faults with
    | true :: rest => (.noneRes, { st with dbFile := false }, rest)
    | false :: rest =>
      let (r, st1) := applyDbOp st op
      (r, st1, rest)
    | [] =>
      let (r, st1) := applyDbOp st op
      (r, st1, [])
  else (.noneRes, st, faults)

/-- `AutoMod.get_warning_count` (automod.py lines 144-154): consults the
database only while `db_file` is set; a fetched row yields its count, and
every other case (no `db_file`, missing row, or a database error — which
also clears `db_file`) falls through to `fallback_warnings.get(user_id, 0)`. -/
def getWarningCount (st : LedgerState) (uid : Nat) (faults : List Bool) :
    Nat × LedgerState × List Bool :=
  if st.dbFile then
    let (r, st1, f1) := dbExecute st (.selectCount uid) faults
    match r with
    | .rowRes c => (c, st1, f1)
    | _ => ((lookupD st1.fallback uid).getD 0, st1, f1)
  else ((lookupD st.fallback uid).getD 0, st, faults)

/-- `AutoMod.increment_warning` (automod.py lines 156-168): reads the
current count, adds one, writes through the database when `db_file` is
still set and the upsert reports success, and otherwise stores the new
count in `fallback_warnings`; returns the new count in every case. -/
def incrementWarning (st : LedgerState) (uid : Nat) (faults : List Bool) :
    Nat × LedgerState × List Bool :=
  let (cur, st1, f1) := getWarningCount st uid faults
  let n := cur + 1
  if st1.dbFile then
    let (r, st2, f2) := dbExecute st1 (.upsertCount uid n) f1
    match r with
    | .okRes => (n, st2, f2)
    | _ => (n, { st2 with fallback := setKey st2.fallback uid n }, f2)
  else (n, { st1 with fallback := setKey st1.fallback uid n }, f1)

/-- `AutoMod.reset_warnings` (automod.py lines 170-180): zeroes the
database row when `db_file` is set and the update succeeds, and otherwise
pops the user from `fallback_warnings`; the Python function returns `True`
on every path, so the model returns only the state. -/
def resetWarnings (st : LedgerState) (uid : Nat) (faults : List Bool) :
    LedgerState × List Bool :=
  if st.dbFile then
    let (r, st1, f1) := dbExecute st (.resetCount uid) faults
    match r with
    | .okRes => (st1, f1)
    | _ => ({ st1 with fallback := removeKey st1.fallback uid }, f1)
  else ({ st with fallback := removeKey st.fallback uid }, faults)

/-- The public ledger interface of `AutoMod`, for statements quantifying
over arbitrary call sequences. -/
inductive LedgerOp where
  | get (uid : Nat)
  | inc (uid : Nat)
  | reset (uid : Nat)
  deriving DecidableEq

/-- One public ledger call, discarding the returned count. -/
def runLedgerOp (st : LedgerState) (op : LedgerOp) (faults : List Bool) :
    LedgerState × List Bool :=
  match op with
  | .get uid =>
    let (_, st1, f1) := getWarningCount st uid faults
    (st1, f1)
  | .inc uid =>
    let (_, st1, f1) := incrementWarning st uid faults
    (st1, f1)
  | .reset uid => resetWarnings st uid faults

/-- A sequence of public ledger calls sharing one fault oracle. -/
def runLedgerOps : List LedgerOp → LedgerState → List Bool → LedgerState × List Bool
  | [], st, faults => (st, faults)
  | op :: ops, st, faults =>
    let (st1, f1) := runLedgerOp st op faults
    runLedgerOps ops st1 f1

/-- `incrementWarning` with no storage fault, iterated `n` times
(the returned counts discarded), as in the monotonic-warnings property. -/
def iterIncrement (uid : Nat) : Nat → LedgerState → LedgerState
  | 0, st => st
  | n + 1, st => iterIncrement uid n (incrementWarning st uid []).2.1

/-! ## Banned-word matcher (`cogs/automod.py`, lines 82-104, 195-202)

The compiled pattern is `re.compile(r'\b(?:' + '|'.join(escaped_words) + r')\b',
re.IGNORECASE)`, where each alternative is `re.escape(word)` — a literal.  The
embedding therefore represents the compiled pattern by its word list and gives
`re.search` semantics directly: the pattern matches the text iff some word of
the list occurs at some position, compared case-insensitively, with a `\b`
word boundary at both ends of the occurrence.  `\b` holds at a position iff
exactly one of the adjacent characters is a word character (alphanumeric or
underscore; positions outside the text count as non-word). -/

/-- Python `str.lower()` on the embedded text. -/
def pyLower (s : List Char) : List Char := s.map Char.toLower

/-- Python `str.strip()`: remove leading and trailing whitespace. -/
def pyStrip (s : List Char) : List Char :=
  ((s.dropWhile Char.isWhitespace).reverse.dropWhile Char.isWhitespace).reverse

/-- Regex word character (`\w`): alphanumeric or underscore. -/
def isWordChar (c : Char) : Bool := c.isAlphanum || c = '_'

/-- Whether position `i` of the text holds a word character
(out-of-range positions count as non-word). -/
def charAtIsWord (t : List Char) (i : Nat) : Bool :=
  match t.drop i with
  | [] => false
  | c :: _ => isWordChar c

/-- Regex `\b` at position `p` (a position ranges over `0..t.length`):
holds iff exactly one of the two adjacent characters is a word character. -/
def boundaryAt (t : List Char) (p : Nat) : Bool :=
  (if p = 0 then false else charAtIsWord t (p - 1)) != charAtIsWord t p

/-- Case-insensitive comparison of the length-`w.length` slice of `t`
starting at `p` against `w` (`re.IGNORECASE` literal matching). -/
def sliceCI (t : List Char) (p : Nat) (w : List Char) : Bool :=
  pyLower ((t.drop p).take w.length) == pyLower w

/-- One alternative `\b re.escape(w) \b` of the compiled pattern matching
at position `p` of `t`. -/
def matchAt (t w : List Char) (p : Nat) : Bool :=
  boundaryAt t p && sliceCI t p w && boundaryAt t (p + w.length)

/-- `re.search` of the combined pattern: some alternative matches at some
position of the text. -/
def patternSearch (words : List (List Char)) (t : List Char) : Bool :=
  (List.range (t.length + 1)).any (fun p => words.any (fun w => matchAt t w p))

/-- Python substring containment `w in t` on the embedded texts. -/
def pySubstr (w t : List Char) : Bool :=
  (List.range (t.length + 1)).any (fun p => (t.drop p).take w.length == w)

/-- The matcher fields of `AutoMod`: the blacklist set `_blacklist` and the
compiled pattern `_pattern` (absent when the blacklist is empty or
compilation raised `re.error`). -/
structure MatcherState where
  blacklist : List (List Char)
  pattern : Option (List (List Char))
  deriving DecidableEq

/-- `AutoMod._compile_blacklist_patterns` (automod.py lines 82-93): an empty
blacklist yields no pattern; otherwise compilation either succeeds, giving
the combined pattern over the blacklist words, or raises `re.error`
(modelled by the `compileFails` flag), which is caught and leaves no
pattern. -/
def compileBlacklistPatterns (bl : List (List Char)) (compileFails : Bool) :
    Option (List (List Char)) :=
  if bl.isEmpty then none
  else if compileFails then none
  else some bl

/-- `AutoMod._contains_blacklisted_word` (automod.py lines 195-202): false
for an empty blacklist; searches the compiled pattern when present; with no
compiled pattern it falls back to case-insensitive substring containment of
each blacklist word in `text.lower()`. -/
def containsBlacklistedWord (st : MatcherState) (text : List Char) : Bool :=
  if st.blacklist.isEmpty then false
  else
    match st.pattern with
    | some words => patternSearch words text
    | none => st.blacklist.any (fun w => pySubstr w (pyLower text))

/-- Convenience: the characters of a string literal. -/
def chars (s : String) : List Char := s.data

/-! ## Staff exemption and message pipeline (`cogs/automod.py`, lines 182-288)

The discord-side facts `on_message` consults (author flags, permission bits,
whether the guild and member resolve, and whether each platform side effect
succeeds or raises which exception) are inputs of the embedding; the
`lru_cache` on `_is_staff_cached` is transparent for a fixed view.  Python
exception semantics matter here: an exception raised inside an `except`
handler of a `try` statement is not caught by the sibling handlers of the
same `try`, and a local variable read before its assignment raises
`UnboundLocalError`. -/

/-- The guild-and-member view behind `_is_staff_cached` for one
(user, guild) pair. -/
structure GuildView where
  guildFound : Bool
  memberFound : Bool
  manageMessages : Bool
  administrator : Bool
  isOwner : Bool
  deriving DecidableEq

/-- `AutoMod._is_staff_cached` (automod.py lines 182-193): false when the
guild or the member does not resolve; otherwise manage-messages, or
administrator, or guild owner. -/
def isStaffCached (g : GuildView) : Bool :=
  if !g.guildFound then false
  else if !g.memberFound then false
  else g.manageMessages || g.administrator || g.isOwner

/-- `self.MAX_WARNINGS`, set to 10 in `AutoMod.__init__` (automod.py line 39). -/
def MAX_WARNINGS : Nat := 10

/-- Outcome of `await message.delete()`. -/
inductive DeleteOutcome where
  | ok
  | notFound
  | forbidden
  | otherError
  deriving DecidableEq

/-- Outcome of resolving the member in `_handle_max_warnings`:
`guild.get_member` succeeds, or `fetch_member` succeeds, or `fetch_member`
raises `discord.NotFound`. -/
inductive MemberLookup where
  | found
  | fetched
  | fetchNotFound
  deriving DecidableEq

/-- Outcome of `await member.kick(...)`. -/
inductive KickOutcome where
  | ok
  | forbidden
  | otherError
  deriving DecidableEq

/-- Outcome of one `await channel.send(...)`. -/
inductive SendOutcome where
  | ok
  | forbidden
  | otherError
  deriving DecidableEq

/-- The platform side-effect outcomes one `on_message` run can encounter:
the message deletion, the member resolution, the kick, the send of the
"User Kicked" announcement, and the send of the "Max Warnings Reached"
notice.  (`_send_warning` swallows every exception of its own sends, so
their outcomes are unobservable and not tracked.) -/
structure SideEffects where
  deleteRes : DeleteOutcome
  memberRes : MemberLookup
  kickRes : KickOutcome
  announceRes : SendOutcome
  noticeRes : SendOutcome
  deriving DecidableEq

/-- The side-effect outcomes with every platform call succeeding. -/
def nominalEffects : SideEffects :=
  { deleteRes := .ok, memberRes := .found, kickRes := .ok,
    announceRes := .ok, noticeRes := .ok }

/-- Python exceptions the embedding distinguishes. -/
inductive PyExc where
  | notFound
  | forbidden
  | otherExc
  | unboundLocal
  deriving DecidableEq

/-- Result of a Python call: a normal return, or a raised exception
propagating to the caller. -/
inductive PyResult (α : Type) where
  | ok (val : α)
  | raised (exc : PyExc)
  deriving DecidableEq

/-- Which notice `_handle_max_warnings` managed to post. -/
inductive Notice where
  | kickedAnnounce
  | cannotKick
  deriving DecidableEq

/-- Observable result of a completed `_handle_max_warnings` call: whether
the kick went through, whether `reset_warnings` was called, and which
notice was posted. -/
structure HandleResult where
  kicked : Bool
  didReset : Bool
  notice : Option Notice
  deriving DecidableEq

/-- `AutoMod._handle_max_warnings` (automod.py lines 234-268).  Member not
resolvable: print and return.  Then `try`: kick; on success send the
"User Kicked" announcement and only then `reset_warnings`; `except
discord.Forbidden` (raised by the kick or by the announcement send) sends
the "Max Warnings Reached / cannot be kicked" notice; `except Exception`
prints.  An exception raised by the notice send inside the `Forbidden`
handler is not caught by the sibling `except Exception` and propagates to
the caller. -/
def handleMaxWarnings (st : LedgerState) (faults : List Bool) (uid : Nat)
    (eff : SideEffects) : PyResult HandleResult × LedgerState × List Bool :=
  match eff.memberRes with
  | .fetchNotFound => (.ok ⟨false, false, none⟩, st, faults)
  | _ =>
    match eff.kickRes with
    | .ok =>
      match eff.announceRes with
      | .ok =>
        let (st1, f1) := resetWarnings st uid faults
        (.ok ⟨true, true, some .kickedAnnounce⟩, st1, f1)
      | .forbidden =>
        match eff.noticeRes with
        | .ok => (.ok ⟨true, false, some .cannotKick⟩, st, faults)
        | .forbidden => (.raised .forbidden, st, faults)
        | .otherError => (.raised .otherExc, st, faults)
      | .otherError => (.ok ⟨true, false, none⟩, st, faults)
    | .forbidden =>
      match eff.noticeRes with
      | .ok => (.ok ⟨false, false, some .cannotKick⟩, st, faults)
      | .forbidden => (.raised .forbidden, st, faults)
      | .otherError => (.raised .otherExc, st, faults)
    | .otherError => (.ok ⟨false, false, none⟩, st, faults)

/-- Inbound message event as `on_message` sees it. -/
structure MessageEvent where
  authorBot : Bool
  inGuild : Bool
  content : List Char
  authorId : Nat
  deriving DecidableEq

/-- What one `on_message` run amounted to (when it did not raise). -/
inductive Outcome where
  | preFiltered
  | staffExempt
  | noMatch
  | notFoundPass
  | warned (count : Nat)
  | escalated (count : Nat) (hr : HandleResult)
  | warnedAfterForbidden (count : Nat)
  | swallowed
  deriving DecidableEq

/-- `AutoMod.on_message` (automod.py lines 205-232).  Bot authors, direct
messages and whitespace-only content are ignored, then staff authors, then
non-matching content.  On a match: `try` deletes the message, assigns
`user_id`, increments the ledger and dispatches on the count.  `except
discord.NotFound: pass`; `except discord.Forbidden` evaluates `user_id` —
which is assigned only after a successful delete, so when the delete itself
raised `Forbidden` this read raises `UnboundLocalError`, uncaught by the
sibling `except Exception`; when the `Forbidden` came out of
`_handle_max_warnings`, `user_id` is bound and the handler re-reads the
count and sends a warning (whose own failures `_send_warning` swallows);
`except Exception` prints. -/
def onMessage (msg : MessageEvent) (gv : GuildView) (mst : MatcherState)
    (st : LedgerState) (faults : List Bool) (eff : SideEffects) :
    PyResult Outcome × LedgerState :=
  if msg.authorBot || !msg.inGuild || (pyStrip msg.content).isEmpty then
    (.ok .preFiltered, st)
  else if isStaffCached gv then (.ok .staffExempt, st)
  else if containsBlacklistedWord mst msg.content then
    match eff.deleteRes with
    | .ok =>
      let uid := msg.authorId
      let (n, st1, f1) := incrementWarning st uid faults
      if MAX_WARNINGS ≤ n then
        match handleMaxWarnings st1 f1 uid eff with
        | (.ok hr, st2, _) => (.ok (.escalated n hr), st2)
        | (.raised .notFound, st2, _) => (.ok .notFoundPass, st2)
        | (.raised .forbidden, st2, f2) =>
          let (c, st3, _) := getWarningCount st2 uid f2
          (.ok (.warnedAfterForbidden c), st3)
        | (.raised _, st2, _) => (.ok .swallowed, st2)
      else (.ok (.warned n), st1)
    | .notFound => (.ok .notFoundPass, st)
    | .forbidden => (.raised .unboundLocal, st)
    | .otherError => (.ok .swallowed, st)
  else (.ok .noMatch, st)

/-! ## Blacklist mutation (`cogs/blacklist.py` lines 238-249,
`cogs/utils.py` lines 74-84) -/

/-- Reply `add_bad_word` sends back to the invoker. -/
inductive AddReply where
  | invalidWord
  | alreadyBlacklisted
  | added
  deriving DecidableEq

/-- Observable result of one `add_bad_word` invocation: the reply, the
updated `_blacklist_cache`, and whether `_persist_and_broadcast` ran
(which saves to `words.py` and notifies the `AutoMod` cog). -/
structure AddResult where
  reply : AddReply
  cache : List (List Char)
  persisted : Bool
  broadcast : Bool
  deriving DecidableEq

/-- `BlacklistCog.add_bad_word` (blacklist.py lines 238-249): normalizes
with `word.lower().strip()`; empty input and duplicates are reported and
change nothing; otherwise the word is added to the cache set and
`_persist_and_broadcast` runs (save to file, then broadcast to `AutoMod`). -/
def addBadWord (cache : List (List Char)) (word : List Char) : AddResult :=
  let w := pyStrip (pyLower word)
  if w.isEmpty then ⟨.invalidWord, cache, false, false⟩
  else if w ∈ cache then ⟨.alreadyBlacklisted, cache, false, false⟩
  else ⟨.added, w :: cache, true, true⟩

/-- `BlacklistManager.add` (utils.py lines 74-84): normalizes with
`word.lower().strip()`; empty or already-present words return `False`
without touching the list or the file; otherwise the word is appended and
`save()` runs, whose success (`saveOk`) is the return value.  Result:
(returned boolean, new list, whether `save()` was triggered). -/
def managerAdd (bl : List (List Char)) (word : List Char) (saveOk : Bool) :
    Bool × List (List Char) × Bool :=
  let w := pyStrip (pyLower word)
  if w.isEmpty || w ∈ bl then (false, bl, false)
  else (saveOk, bl ++ [w], true)

/-! ## Ledger lemmas -/

theorem lookupD_setKey_self (l : List (Nat × Nat)) (u v : Nat) :
    lookupD (setKey l u v) u = some v := by
  induction l with
  | nil => simp [setKey, lookupD]
  | cons p rest ih =>
    obtain ⟨k, w⟩ := p
    by_cases h : k = u
    · simp [setKey, lookupD, h]
    · simp [setKey, lookupD, h, ih]

theorem incrementWarning_db_step (db : List (Nat × Nat)) (uid c : Nat)
    (h : lookupD db uid = some c) :
    incrementWarning ⟨true, db, []⟩ uid [] =
      (c + 1, ⟨true, setKey db uid (c + 1), []⟩, []) := by
  simp [incrementWarning, getWarningCount, dbExecute, applyDbOp, h]

theorem incrementWarning_db_fresh (db : List (Nat × Nat)) (uid : Nat)
    (h : lookupD db uid = none) :
    incrementWarning ⟨true, db, []⟩ uid [] =
      (1, ⟨true, setKey db uid 1, []⟩, []) := by
  simp [incrementWarning, getWarningCount, dbExecute, applyDbOp, h, lookupD]

theorem iterIncrement_db (uid : Nat) :
    ∀ n k : Nat, iterIncrement uid n ⟨true, [(uid, k)], []⟩ =
      ⟨true, [(uid, k + n)], []⟩ := by
  intro n
  induction n with
  | zero => intro k; simp [iterIncrement]
  | succ m ih =>
    intro k
    have hstep := incrementWarning_db_step [(uid, k)] uid k (by simp [lookupD])
    have hset : setKey [(uid, k)] uid (k + 1) = [(uid, k + 1)] := by simp [setKey]
    have harith : k + 1 + m = k + (m + 1) := by omega
    simp only [iterIncrement, hstep, hset, ih, harith]

theorem incrementWarning_mem_step (fb : List (Nat × Nat)) (uid c : Nat)
    (h : (lookupD fb uid).getD 0 = c) :
    incrementWarning ⟨false, [], fb⟩ uid [] =
      (c + 1, ⟨false, [], setKey fb uid (c + 1)⟩, []) := by
  simp [incrementWarning, getWarningCount, h]

theorem iterIncrement_mem (uid : Nat) :
    ∀ n k : Nat, iterIncrement uid n ⟨false, [], [(uid, k)]⟩ =
      ⟨false, [], [(uid, k + n)]⟩ := by
  intro n
  induction n with
  | zero => intro k; simp [iterIncrement]
  | succ m ih =>
    intro k
    have hstep := incrementWarning_mem_step [(uid, k)] uid k (by simp [lookupD])
    have hset : setKey [(uid, k)] uid (k + 1) = [(uid, k + 1)] := by simp [setKey]
    have harith : k + 1 + m = k + (m + 1) := by omega
    simp only [iterIncrement, hstep, hset, ih, harith]

theorem runLedgerOp_degraded (st : LedgerState) (op : LedgerOp)
    (faults : List Bool) (h : st.dbFile = false) :
    (runLedgerOp st op faults).1.dbFile = false ∧
    (runLedgerOp st op faults).1.db = st.db ∧
    (runLedgerOp st op faults).2 = faults := by
  cases op <;>
    simp [runLedgerOp, getWarningCount, incrementWarning, resetWarnings, h]

theorem runLedgerOps_degraded (ops : List LedgerOp) :
    ∀ (st : LedgerState) (faults : List Bool), st.dbFile = false →
      (runLedgerOps ops st faults).1.dbFile = false ∧
      (runLedgerOps ops st faults).1.db = st.db ∧
      (runLedgerOps ops st faults).2 = faults := by
  induction ops with
  | nil => intro st faults h; simp [runLedgerOps, h]
  | cons op rest ih =>
    intro st faults h
    obtain ⟨h1, h2, h3⟩ := runLedgerOp_degraded st op faults h
    have := ih (runLedgerOp st op faults).1 (runLedgerOp st op faults).2 h1
    simp only [runLedgerOps]
    exact ⟨this.1, by rw [this.2.1, h2], by rw [this.2.2, h3]⟩

theorem runLedgerOp_fault_degrades (st : LedgerState) (op : LedgerOp)
    (rest : List Bool) (h : st.dbFile = true) :
    (runLedgerOp st op (true :: rest)).1.dbFile = false := by
  cases op <;>
    simp [runLedgerOp, getWarningCount, incrementWarning, resetWarnings,
      dbExecute, h]

/-- C5 — Monotonic warnings: for every user `uid` and every `N ≥ 1`,
starting from no record for `uid`, calling `increment_warning` `N` times
sequentially with no storage fault makes `get_warning_count` return `N`,
and a subsequent `reset_warnings` makes it return `0`; this holds both in
the database-backed mode (`db_file` set, empty table) and in the in-memory
fallback mode (`db_file` cleared, empty dict). -/
theorem C5_monotonic_warnings (uid N : Nat) (hN : 1 ≤ N) :
    ((getWarningCount (iterIncrement uid N ⟨true, [], []⟩) uid []).1 = N ∧
      (getWarningCount
        (resetWarnings (iterIncrement uid N ⟨true, [], []⟩) uid []).1
        uid []).1 = 0) ∧
    ((getWarningCount (iterIncrement uid N ⟨false, [], []⟩) uid []).1 = N ∧
      (getWarningCount
        (resetWarnings (iterIncrement uid N ⟨false, [], []⟩) uid []).1
        uid []).1 = 0) := by
  obtain ⟨n, rfl⟩ : ∃ n, N = n + 1 := ⟨N - 1, by omega⟩
  have e : 1 + n = n + 1 := Nat.add_comm 1 n
  have h1 : incrementWarning ⟨true, [], []⟩ uid [] =
      (1, ⟨true, [(uid, 1)], []⟩, []) := by
    simpa [setKey] using incrementWarning_db_fresh [] uid (by simp [lookupD])
  have hiterD : iterIncrement uid (n + 1) ⟨true, [], []⟩ =
      ⟨true, [(uid, n + 1)], []⟩ := by
    simp only [iterIncrement, h1]
    rw [iterIncrement_db uid n 1, e]
  have h2 : incrementWarning ⟨false, [], []⟩ uid [] =
      (1, ⟨false, [], [(uid, 1)]⟩, []) := by
    simpa [setKey] using incrementWarning_mem_step [] uid 0 (by simp [lookupD])
  have hiterM : iterIncrement uid (n + 1) ⟨false, [], []⟩ =
      ⟨false, [], [(uid, n + 1)]⟩ := by
    simp only [iterIncrement, h2]
    rw [iterIncrement_mem uid n 1, e]
  refine ⟨⟨?_, ?_⟩, ?_, ?_⟩
  · rw [hiterD]
    simp [getWarningCount, dbExecute, applyDbOp, lookupD]
  · rw [hiterD]
    simp [resetWarnings, dbExecute, applyDbOp, zeroKey, getWarningCount,
      lookupD]
  · rw [hiterM]
    simp [getWarningCount, lookupD]
  · rw [hiterM]
    simp [resetWarnings, removeKey, getWarningCount, lookupD]

/-- Witness for C5 at `uid = 7`, `N = 3`. -/
theorem C5_monotonic_warnings_witness :
    1 ≤ 3 ∧
    (((getWarningCount (iterIncrement 7 3 ⟨true, [], []⟩) 7 []).1 = 3 ∧
      (getWarningCount
        (resetWarnings (iterIncrement 7 3 ⟨true, [], []⟩) 7 []).1
        7 []).1 = 0) ∧
    ((getWarningCount (iterIncrement 7 3 ⟨false, [], []⟩) 7 []).1 = 3 ∧
      (getWarningCount
        (resetWarnings (iterIncrement 7 3 ⟨false, [], []⟩) 7 []).1
        7 []).1 = 0)) :=
  ⟨by norm_num, C5_monotonic_warnings 7 3 (by norm_num)⟩

/-- C7 — One-way degradation of the warning ledger.  First conjunct: from
any degraded state (`db_file` cleared, which is exactly what `_db_execute`
does on its first `sqlite3.Error`), every sequence of
`get_warning_count` / `increment_warning` / `reset_warnings` calls keeps
`db_file` cleared, never touches the database table, and consumes no
database fault flag (the database is never consulted again); the calls
are total functions of the embedding, so none raises to the caller.
Second conjunct: from any state with `db_file` still set, a ledger call
whose next database access errors leaves `db_file` cleared — the
transition fires on the first error. -/
theorem C7_one_way_degradation (ops : List LedgerOp) (st : LedgerState)
    (faults : List Bool) (op : LedgerOp) (rest : List Bool)
    (st' : LedgerState) (hdeg : st.dbFile = false)
    (hup : st'.dbFile = true) :
    ((runLedgerOps ops st faults).1.dbFile = false ∧
      (runLedgerOps ops st faults).1.db = st.db ∧
      (runLedgerOps ops st faults).2 = faults) ∧
    (runLedgerOp st' op (true :: rest)).1.dbFile = false :=
  ⟨runLedgerOps_degraded ops st faults hdeg,
    runLedgerOp_fault_degrades st' op rest hup⟩

/-- Witness for C7 on a three-call sequence after degradation and an
increment that hits a database error. -/
theorem C7_one_way_degradation_witness :
    (LedgerState.mk false [(3, 4)] []).dbFile = false ∧
    (LedgerState.mk true [] []).dbFile = true ∧
    (((runLedgerOps [.inc 1, .get 1, .reset 1]
        ⟨false, [(3, 4)], []⟩ [true, false]).1.dbFile = false ∧
      (runLedgerOps [.inc 1, .get 1, .reset 1]
        ⟨false, [(3, 4)], []⟩ [true, false]).1.db = [(3, 4)] ∧
      (runLedgerOps [.inc 1, .get 1, .reset 1]
        ⟨false, [(3, 4)], []⟩ [true, false]).2 = [true, false]) ∧
    (runLedgerOp ⟨true, [], []⟩ (.inc 2) (true :: [false])).1.dbFile
      = false) :=
  ⟨rfl, rfl,
    C7_one_way_degradation [.inc 1, .get 1, .reset 1] ⟨false, [(3, 4)], []⟩
      [true, false] (.inc 2) [false] ⟨true, [], []⟩ rfl rfl⟩

/-- C10 — Degradation discards durable history: for a user `uid` whose
count `c` is recorded only in the database, a `get_warning_count` call
whose database access errors returns `0` (not `c`) and leaves the ledger
degraded with an empty fallback map, and the next `increment_warning` on
the degraded ledger returns `1`: the pre-failure count is not carried into
the fallback map. -/
theorem C10_degradation_discards_history (uid c : Nat) :
    (getWarningCount ⟨true, [(uid, c)], []⟩ uid [true]).1 = 0 ∧
    (getWarningCount ⟨true, [(uid, c)], []⟩ uid [true]).2.1 =
      ⟨false, [(uid, c)], []⟩ ∧
    (incrementWarning ⟨false, [(uid, c)], []⟩ uid []).1 = 1 := by
  refine ⟨?_, ?_, ?_⟩ <;>
    simp [getWarningCount, incrementWarning, dbExecute, lookupD]

/-! ## Matcher lemmas -/

theorem pySubstr_iff (w t : List Char) :
    pySubstr w t = true ↔
      ∃ p, p + w.length ≤ t.length ∧ (t.drop p).take w.length = w := by
  unfold pySubstr
  simp only [List.any_eq_true, List.mem_range, beq_iff_eq]
  constructor
  · rintro ⟨p, hp, hslice⟩
    refine ⟨p, ?_, hslice⟩
    have hlen := congrArg List.length hslice
    simp only [List.length_take, List.length_drop] at hlen
    omega
  · rintro ⟨p, hle, hslice⟩
    exact ⟨p, by omega, hslice⟩

theorem patternSearch_of_matchAt (bl : List (List Char)) (t w : List Char)
    (p : Nat) (hmem : w ∈ bl) (hp : p ≤ t.length)
    (hm : matchAt t w p = true) : patternSearch bl t = true := by
  simp only [patternSearch, List.any_eq_true, List.mem_range]
  exact ⟨p, by omega, w, hmem, hm⟩

theorem patternSearch_eq_false (bl : List (List Char)) (t : List Char)
    (h : ∀ w ∈ bl, ∀ p, matchAt t w p = false) :
    patternSearch bl t = false := by
  simp only [patternSearch, List.any_eq_false, List.mem_range]
  intro p _ hany
  obtain ⟨w, hw, hmw⟩ := List.any_eq_true.mp hany
  simp [h w hw p] at hmw

theorem sliceCI_of_append (pre win suf w : List Char)
    (hci : pyLower win = pyLower w) :
    sliceCI (pre ++ win ++ suf) pre.length w = true := by
  have hlen : win.length = w.length := by
    have := congrArg List.length hci
    simpa [pyLower] using this
  unfold sliceCI
  rw [List.append_assoc, List.drop_left, ← hlen, List.take_left, hci]
  simp

theorem matchAt_of_append (pre win suf w : List Char)
    (hci : pyLower win = pyLower w)
    (hb1 : boundaryAt (pre ++ win ++ suf) pre.length = true)
    (hb2 : boundaryAt (pre ++ win ++ suf) (pre.length + win.length) = true) :
    matchAt (pre ++ win ++ suf) w pre.length = true := by
  have hlen : win.length = w.length := by
    have := congrArg List.length hci
    simpa [pyLower] using this
  have hslice := sliceCI_of_append pre win suf w hci
  simp only [matchAt, Bool.and_eq_true, ← hlen]
  exact ⟨⟨hb1, hslice⟩, hb2⟩

/-- C2 — counterexample: with the non-empty word list `["bad"]` and no
compiled pattern (the state `_compile_blacklist_patterns` leaves after
`re.error`), `_contains_blacklisted_word` reports a match on the text
`"bad"`, so the matcher does not return false for every input text. -/
theorem C2_fail_closed_counterexample :
    compileBlacklistPatterns [chars "bad"] true = none ∧
    containsBlacklistedWord ⟨[chars "bad"], none⟩ (chars "bad") = true :=
  ⟨rfl, by decide⟩

/-- C2 amended — when the combined pattern failed to compile (compiled
pattern absent) and the word list is non-empty, `_contains_blacklisted_word`
does not fail closed: it falls back to case-insensitive substring
containment, returning true exactly when some banned word occurs as a
(not necessarily whole-token) substring of the lower-cased text. -/
theorem C2_no_pattern_substring_fallback (bl : List (List Char))
    (t : List Char) (hbl : bl ≠ []) :
    containsBlacklistedWord ⟨bl, none⟩ t = true ↔
      ∃ w ∈ bl, ∃ p, p + w.length ≤ t.length ∧
        ((pyLower t).drop p).take w.length = w := by
  have hne : bl.isEmpty = false := by
    cases bl with
    | nil => exact absurd rfl hbl
    | cons a l => rfl
  simp [containsBlacklistedWord, hne, List.any_eq_true, pySubstr_iff,
    pyLower, List.length_map]

/-- Witness for the amended C2: word list `["ok"]`, text `"OK!"`. -/
theorem C2_no_pattern_substring_fallback_witness :
    ([chars "ok"] : List (List Char)) ≠ [] ∧
    containsBlacklistedWord ⟨[chars "ok"], none⟩ (chars "OK!") = true :=
  ⟨by decide,
    (C2_no_pattern_substring_fallback [chars "ok"] (chars "OK!")
        (by decide)).mpr ⟨chars "ok", by decide, 0, by decide, by decide⟩⟩

/-- C3 — counterexample: take the compiled word list `["bad", "cat"]` and
the text `"xbad cat"`.  The banned word `"bad"` occurs in the text only
embedded inside the longer token `"xbad"` — the boundary-delimited search
for `"bad"` alone finds nothing — yet `_contains_blacklisted_word` returns
true (the other banned word matches), so the claim's second half is false
as stated. -/
theorem C3_whole_token_counterexample :
    pySubstr (chars "bad") (pyLower (chars "xbad cat")) = true ∧
    patternSearch [chars "bad"] (chars "xbad cat") = false ∧
    containsBlacklistedWord
      ⟨[chars "bad", chars "cat"], some [chars "bad", chars "cat"]⟩
      (chars "xbad cat") = true :=
  ⟨by decide, by decide, by decide⟩

/-- C3 amended — whole-token matching.  First conjunct: for every banned
word `w` of the compiled word list and every text in which a case variant
`win` of `w` occurs delimited by word boundaries (in particular texts
`"{prefix} {w} {suffix}"` whose `w` starts and ends with word characters),
`_contains_blacklisted_word` returns true regardless of letter case.
Second conjunct: for every text with no boundary-delimited,
case-insensitive occurrence of any banned word — in particular when banned
words occur only embedded inside longer tokens — it returns false. -/
theorem C3_whole_token_matching (bl : List (List Char))
    (w pre win suf : List Char) (hmem : w ∈ bl)
    (hci : pyLower win = pyLower w)
    (hb1 : boundaryAt (pre ++ win ++ suf) pre.length = true)
    (hb2 : boundaryAt (pre ++ win ++ suf) (pre.length + win.length) = true) :
    containsBlacklistedWord ⟨bl, some bl⟩ (pre ++ win ++ suf) = true ∧
    ∀ t : List Char, (∀ w' ∈ bl, ∀ p, matchAt t w' p = false) →
      containsBlacklistedWord ⟨bl, some bl⟩ t = false := by
  have hne : bl.isEmpty = false := by
    cases bl with
    | nil => exact absurd hmem (List.not_mem_nil w)
    | cons a l => rfl
  constructor
  · have hm := matchAt_of_append pre win suf w hci hb1 hb2
    have hp : pre.length ≤ (pre ++ win ++ suf).length := by
      rw [List.append_assoc, List.length_append]
      omega
    have hps :=
      patternSearch_of_matchAt bl (pre ++ win ++ suf) w pre.length hmem hp hm
    rw [List.append_assoc] at hps
    simpa [containsBlacklistedWord, hne] using hps
  · intro t ht
    have hps := patternSearch_eq_false bl t ht
    simp [containsBlacklistedWord, hne, hps]

/-- Witness for the amended C3: word list `["bad"]`, text `"a BAD c"`. -/
theorem C3_whole_token_matching_witness :
    chars "bad" ∈ [chars "bad"] ∧
    pyLower (chars "BAD") = pyLower (chars "bad") ∧
    boundaryAt (chars "a " ++ chars "BAD" ++ chars " c")
      (chars "a ").length = true ∧
    boundaryAt (chars "a " ++ chars "BAD" ++ chars " c")
      ((chars "a ").length + (chars "BAD").length) = true ∧
    containsBlacklistedWord ⟨[chars "bad"], some [chars "bad"]⟩
      (chars "a " ++ chars "BAD" ++ chars " c") = true :=
  ⟨by decide, by decide, by decide, by decide,
    (C3_whole_token_matching [chars "bad"] (chars "bad") (chars "a ")
        (chars "BAD") (chars " c") (by decide) (by decide) (by decide)
        (by decide)).1⟩

/-! ## Pipeline lemmas -/

theorem incrementWarning_fst (st : LedgerState) (uid : Nat)
    (faults : List Bool) :
    (incrementWarning st uid faults).1 =
      (getWarningCount st uid faults).1 + 1 := by
  rcases hg : getWarningCount st uid faults with ⟨cur, st1, f1⟩
  simp only [incrementWarning, hg]
  by_cases hdb : st1.dbFile
  · rcases hde : dbExecute st1 (.upsertCount uid (cur + 1)) f1 with ⟨r, st2, f2⟩
    cases r <;> simp [hdb, hde]
  · simp [hdb]

theorem handleMaxWarnings_nominal (st : LedgerState) (faults : List Bool)
    (uid : Nat) :
    handleMaxWarnings st faults uid
      { deleteRes := .ok, memberRes := .found, kickRes := .ok,
        announceRes := .ok, noticeRes := .ok } =
      (.ok ⟨true, true, some .kickedAnnounce⟩, resetWarnings st uid faults) := by
  simp [handleMaxWarnings]

/-- C1 — Escalation boundary.  First conjunct: for every non-exempt,
non-bot guild message with non-blank content matching a banned word, with
all platform side effects succeeding and no storage fault, `on_message`
computes `new_count = prior_count + 1` and, when `new_count >= 10`
(`MAX_WARNINGS`), enters the kick path of `_handle_max_warnings`
(user removal), otherwise deletes and warns with the new count.  Second
and third conjuncts: at `prior_count = 8` it warns with `9`; at
`prior_count = 9` it removes with `10`. -/
theorem C1_escalation_boundary (msg : MessageEvent) (gv : GuildView)
    (mst : MatcherState) (st : LedgerState)
    (hbot : msg.authorBot = false) (hguild : msg.inGuild = true)
    (hcontent : (pyStrip msg.content).isEmpty = false)
    (hstaff : isStaffCached gv = false)
    (hmatch : containsBlacklistedWord mst msg.content = true) :
    ((onMessage msg gv mst st [] nominalEffects).1 =
      if 10 ≤ (getWarningCount st msg.authorId []).1 + 1 then
        .ok (.escalated ((getWarningCount st msg.authorId []).1 + 1)
          ⟨true, true, some .kickedAnnounce⟩)
      else .ok (.warned ((getWarningCount st msg.authorId []).1 + 1))) ∧
    (onMessage msg gv mst ⟨true, [(msg.authorId, 8)], []⟩ []
        nominalEffects).1 = .ok (.warned 9) ∧
    (onMessage msg gv mst ⟨true, [(msg.authorId, 9)], []⟩ []
        nominalEffects).1 =
      .ok (.escalated 10 ⟨true, true, some .kickedAnnounce⟩) := by
  have key : ∀ stx : LedgerState,
      (onMessage msg gv mst stx [] nominalEffects).1 =
        if 10 ≤ (getWarningCount stx msg.authorId []).1 + 1 then
          .ok (.escalated ((getWarningCount stx msg.authorId []).1 + 1)
            ⟨true, true, some .kickedAnnounce⟩)
        else .ok (.warned ((getWarningCount stx msg.authorId []).1 + 1)) := by
    intro stx
    rcases hg : incrementWarning stx msg.authorId [] with ⟨n, st1, f1⟩
    have hn : n = (getWarningCount stx msg.authorId []).1 + 1 := by
      have h := incrementWarning_fst stx msg.authorId []
      rw [hg] at h
      exact h
    rw [hn] at hg
    rcases hreset : resetWarnings st1 msg.authorId f1 with ⟨st2, f2⟩
    simp only [onMessage, hbot, hguild, hcontent, hstaff, hmatch,
      Bool.not_true, Bool.or_self, Bool.or_false, Bool.false_or,
      Bool.false_eq_true, if_false, if_true, nominalEffects, hg,
      handleMaxWarnings_nominal, hreset, MAX_WARNINGS]
    by_cases h10 : 10 ≤ (getWarningCount stx msg.authorId []).1 + 1
    · simp [h10]
    · simp [h10]
  refine ⟨key st, ?_, ?_⟩
  · have h8 : (getWarningCount ⟨true, [(msg.authorId, 8)], []⟩
        msg.authorId []).1 = 8 := by
      simp [getWarningCount, dbExecute, applyDbOp, lookupD]
    rw [key ⟨true, [(msg.authorId, 8)], []⟩, h8]
    norm_num
  · have h9 : (getWarningCount ⟨true, [(msg.authorId, 9)], []⟩
        msg.authorId []).1 = 9 := by
      simp [getWarningCount, dbExecute, applyDbOp, lookupD]
    rw [key ⟨true, [(msg.authorId, 9)], []⟩, h9]
    norm_num

/-- Witness for C1: non-staff author 42 in a guild, text `"so bad"`,
word list `["bad"]`, fresh ledger. -/
theorem C1_escalation_boundary_witness :
    (MessageEvent.mk false true (chars "so bad") 42).authorBot = false ∧
    (MessageEvent.mk false true (chars "so bad") 42).inGuild = true ∧
    (pyStrip (MessageEvent.mk false true (chars "so bad") 42).content).isEmpty
      = false ∧
    isStaffCached ⟨true, true, false, false, false⟩ = false ∧
    containsBlacklistedWord ⟨[chars "bad"], some [chars "bad"]⟩
      (MessageEvent.mk false true (chars "so bad") 42).content = true ∧
    ((onMessage ⟨false, true, chars "so bad", 42⟩
        ⟨true, true, false, false, false⟩
        ⟨[chars "bad"], some [chars "bad"]⟩ ⟨true, [], []⟩ []
        nominalEffects).1 =
      if 10 ≤ (getWarningCount ⟨true, [], []⟩ 42 []).1 + 1 then
        .ok (.escalated ((getWarningCount ⟨true, [], []⟩ 42 []).1 + 1)
          ⟨true, true, some .kickedAnnounce⟩)
      else .ok (.warned ((getWarningCount ⟨true, [], []⟩ 42 []).1 + 1))) ∧
    (onMessage ⟨false, true, chars "so bad", 42⟩
        ⟨true, true, false, false, false⟩
        ⟨[chars "bad"], some [chars "bad"]⟩ ⟨true, [(42, 8)], []⟩ []
        nominalEffects).1 = .ok (.warned 9) ∧
    (onMessage ⟨false, true, chars "so bad", 42⟩
        ⟨true, true, false, false, false⟩
        ⟨[chars "bad"], some [chars "bad"]⟩ ⟨true, [(42, 9)], []⟩ []
        nominalEffects).1 =
      .ok (.escalated 10 ⟨true, true, some .kickedAnnounce⟩) :=
  ⟨rfl, rfl, by decide, by decide, by decide,
    C1_escalation_boundary ⟨false, true, chars "so bad", 42⟩
      ⟨true, true, false, false, false⟩
      ⟨[chars "bad"], some [chars "bad"]⟩ ⟨true, [], []⟩ rfl rfl
      (by decide) (by decide) (by decide)⟩

/-- C4 — Exemption short-circuit: for every message whose author is
staff-exempt under `_is_staff_cached`, `on_message` leaves the ledger
state untouched (warning count unchanged) and performs no side effect —
it returns on the pre-filter or on the staff check (decision Ignore),
never reaching deletion, warning or kick, for every matcher state, fault
oracle and side-effect outcome; moreover `_is_staff_cached` holds for a
resolved member exactly when the member has manage-messages or
administrator permission or is the guild owner. -/
theorem C4_exemption_short_circuit (msg : MessageEvent) (gv : GuildView)
    (mst : MatcherState) (st : LedgerState) (faults : List Bool)
    (eff : SideEffects) (hstaff : isStaffCached gv = true) :
    (onMessage msg gv mst st faults eff).2 = st ∧
    ((onMessage msg gv mst st faults eff).1 = .ok .preFiltered ∨
      (onMessage msg gv mst st faults eff).1 = .ok .staffExempt) ∧
    ∀ g : GuildView, g.guildFound = true → g.memberFound = true →
      isStaffCached g = (g.manageMessages || g.administrator || g.isOwner) := by
  refine ⟨?_, ?_, ?_⟩
  · unfold onMessage
    by_cases hpre : (msg.authorBot || !msg.inGuild ||
        (pyStrip msg.content).isEmpty) = true
    · simp [hpre]
    · simp [hpre, hstaff]
  · unfold onMessage
    by_cases hpre : (msg.authorBot || !msg.inGuild ||
        (pyStrip msg.content).isEmpty) = true
    · simp [hpre]
    · simp [hpre, hstaff]
  · intro g hg hm
    simp [isStaffCached, hg, hm]

/-- Witness for C4: an administrator author with matching content. -/
theorem C4_exemption_short_circuit_witness :
    isStaffCached ⟨true, true, false, true, false⟩ = true ∧
    ((onMessage ⟨false, true, chars "so bad", 9⟩
        ⟨true, true, false, true, false⟩
        ⟨[chars "bad"], some [chars "bad"]⟩ ⟨true, [(9, 4)], []⟩ [true]
        nominalEffects).2 = ⟨true, [(9, 4)], []⟩ ∧
    ((onMessage ⟨false, true, chars "so bad", 9⟩
        ⟨true, true, false, true, false⟩
        ⟨[chars "bad"], some [chars "bad"]⟩ ⟨true, [(9, 4)], []⟩ [true]
        nominalEffects).1 = .ok .preFiltered ∨
      (onMessage ⟨false, true, chars "so bad", 9⟩
        ⟨true, true, false, true, false⟩
        ⟨[chars "bad"], some [chars "bad"]⟩ ⟨true, [(9, 4)], []⟩ [true]
        nominalEffects).1 = .ok .staffExempt)) :=
  ⟨by decide,
    (C4_exemption_short_circuit ⟨false, true, chars "so bad", 9⟩
      ⟨true, true, false, true, false⟩
      ⟨[chars "bad"], some [chars "bad"]⟩ ⟨true, [(9, 4)], []⟩ [true]
      nominalEffects (by decide)).1,
    (C4_exemption_short_circuit ⟨false, true, chars "so bad", 9⟩
      ⟨true, true, false, true, false⟩
      ⟨[chars "bad"], some [chars "bad"]⟩ ⟨true, [(9, 4)], []⟩ [true]
      nominalEffects (by decide)).2.1⟩

/-- C6 — Duplicate add is a distinct no-op.  For a word whose
normalization (lower-case, strip) is non-blank and not yet present:
through `BlacklistCog.add_bad_word`, the first add reports "added",
changes the cache and triggers persistence and broadcast, and a second
add of the same word reports "already blacklisted" distinctly, leaves the
cache unchanged and triggers neither persistence nor broadcast; through
`BlacklistManager.add`, the first call appends and triggers `save()` and
the second returns `False` without touching the list or the file.  Hence
adding the same word twice changes the word list exactly once. -/
theorem C6_duplicate_add_noop (cache bl : List (List Char))
    (word : List Char) (saveOk : Bool)
    (hw : (pyStrip (pyLower word)).isEmpty = false)
    (hnew : pyStrip (pyLower word) ∉ cache)
    (hnewM : pyStrip (pyLower word) ∉ bl) :
    (addBadWord cache word =
        ⟨.added, pyStrip (pyLower word) :: cache, true, true⟩ ∧
      addBadWord (addBadWord cache word).cache word =
        ⟨.alreadyBlacklisted, pyStrip (pyLower word) :: cache,
          false, false⟩) ∧
    (managerAdd bl word saveOk =
        (saveOk, bl ++ [pyStrip (pyLower word)], true) ∧
      managerAdd (managerAdd bl word saveOk).2.1 word saveOk =
        (false, bl ++ [pyStrip (pyLower word)], false)) := by
  have h1 : addBadWord cache word =
      ⟨.added, pyStrip (pyLower word) :: cache, true, true⟩ := by
    simp [addBadWord, hw, hnew]
  have h2 : managerAdd bl word saveOk =
      (saveOk, bl ++ [pyStrip (pyLower word)], true) := by
    simp [managerAdd, hw, hnewM]
  refine ⟨⟨h1, ?_⟩, h2, ?_⟩
  · rw [h1]
    simp [addBadWord, hw]
  · rw [h2]
    simp [managerAdd, hw]

/-- Witness for C6: cache `["x"]`, manager list `[]`, word `" NeW "`. -/
theorem C6_duplicate_add_noop_witness :
    (pyStrip (pyLower (chars " NeW "))).isEmpty = false ∧
    pyStrip (pyLower (chars " NeW ")) ∉ [chars "x"] ∧
    pyStrip (pyLower (chars " NeW ")) ∉ ([] : List (List Char)) ∧
    ((addBadWord [chars "x"] (chars " NeW ") =
        ⟨.added, pyStrip (pyLower (chars " NeW ")) :: [chars "x"],
          true, true⟩ ∧
      addBadWord (addBadWord [chars "x"] (chars " NeW ")).cache
          (chars " NeW ") =
        ⟨.alreadyBlacklisted,
          pyStrip (pyLower (chars " NeW ")) :: [chars "x"],
          false, false⟩) ∧
    (managerAdd [] (chars " NeW ") true =
        (true, [] ++ [pyStrip (pyLower (chars " NeW "))], true) ∧
      managerAdd (managerAdd [] (chars " NeW ") true).2.1
          (chars " NeW ") true =
        (false, [] ++ [pyStrip (pyLower (chars " NeW "))], false))) :=
  ⟨by decide, by decide, by decide,
    C6_duplicate_add_noop [chars "x"] [] (chars " NeW ") true (by decide)
      (by decide) (by decide)⟩

/-- C8 — the code violates the claim at a concrete input: with a user at
the threshold, member resolved and the kick succeeding, if the
"User Kicked" announcement send raises `Forbidden`, the generic
`except discord.Forbidden` of `_handle_max_warnings` catches it before
`reset_warnings` runs — the count is NOT reset although the kick
succeeded, and the "cannot be kicked" notice is posted although the user
was kicked (first two conjuncts, the divergence).  Third and fourth
conjuncts: on the nominal path the reset does happen, and on a
`Forbidden` kick the count is unchanged and the distinct
threshold-reached notice is issued, as the claim states. -/
theorem C8_reset_skipped_when_announce_fails :
    (handleMaxWarnings ⟨true, [(42, 10)], []⟩ [] 42
        { nominalEffects with announceRes := .forbidden }).1 =
      .ok ⟨true, false, some .cannotKick⟩ ∧
    (handleMaxWarnings ⟨true, [(42, 10)], []⟩ [] 42
        { nominalEffects with announceRes := .forbidden }).2.1 =
      ⟨true, [(42, 10)], []⟩ ∧
    (handleMaxWarnings ⟨true, [(42, 10)], []⟩ [] 42 nominalEffects).1 =
      .ok ⟨true, true, some .kickedAnnounce⟩ ∧
    (handleMaxWarnings ⟨true, [(42, 10)], []⟩ [] 42 nominalEffects).2.1 =
      ⟨true, [(42, 0)], []⟩ ∧
    (handleMaxWarnings ⟨true, [(42, 10)], []⟩ [] 42
        { nominalEffects with kickRes := .forbidden }).1 =
      .ok ⟨false, false, some .cannotKick⟩ ∧
    (handleMaxWarnings ⟨true, [(42, 10)], []⟩ [] 42
        { nominalEffects with kickRes := .forbidden }).2.1 =
      ⟨true, [(42, 10)], []⟩ := by
  refine ⟨by decide, by decide, by decide, by decide, by decide, by decide⟩

/-- C9 — the code violates the claim at a concrete input: for a
non-exempt guild message matching a banned word whose deletion raises
`discord.Forbidden`, the `except discord.Forbidden` handler of
`on_message` reads the local `user_id`, which is assigned only after a
successful delete, so the handler raises `UnboundLocalError` — an
unhandled fault propagating to the platform dispatcher (first conjunct,
with the ledger untouched: second conjunct).  The other delete-failure
branches complete without raising (conjuncts three and four), as does the
kick-forbidden-then-notice-forbidden combination reaching the threshold
(fifth conjunct). -/
theorem C9_unbound_local_on_forbidden_delete :
    (onMessage ⟨false, true, chars "so bad", 42⟩
        ⟨true, true, false, false, false⟩
        ⟨[chars "bad"], some [chars "bad"]⟩ ⟨true, [], []⟩ []
        { nominalEffects with deleteRes := .forbidden }).1 =
      .raised .unboundLocal ∧
    (onMessage ⟨false, true, chars "so bad", 42⟩
        ⟨true, true, false, false, false⟩
        ⟨[chars "bad"], some [chars "bad"]⟩ ⟨true, [], []⟩ []
        { nominalEffects with deleteRes := .forbidden }).2 =
      ⟨true, [], []⟩ ∧
    (onMessage ⟨false, true, chars "so bad", 42⟩
        ⟨true, true, false, false, false⟩
        ⟨[chars "bad"], some [chars "bad"]⟩ ⟨true, [], []⟩ []
        { nominalEffects with deleteRes := .notFound }).1 =
      .ok .notFoundPass ∧
    (onMessage ⟨false, true, chars "so bad", 42⟩
        ⟨true, true, false, false, false⟩
        ⟨[chars "bad"], some [chars "bad"]⟩ ⟨true, [], []⟩ [true]
        { nominalEffects with deleteRes := .otherError }).1 =
      .ok .swallowed ∧
    (onMessage ⟨false, true, chars "so bad", 42⟩
        ⟨true, true, false, false, false⟩
        ⟨[chars "bad"], some [chars "bad"]⟩ ⟨true, [(42, 9)], []⟩ []
        { deleteRes := .ok, memberRes := .found, kickRes := .forbidden,
          announceRes := .ok, noticeRes := .forbidden }).1 =
      .ok (.warnedAfterForbidden 10) := by
  refine ⟨by decide, by decide, by decide, by decide, by decide⟩
